import Mathlib

/-!
Verification of the ReserveMap repository's core logic: program filtering
(`src/components/Map.jsx`, `src/pages/Home.jsx`), the city index and search
(`src/pages/Home.jsx`), the data-load validation (`scripts/convert-data.js`),
and the marker-clustering contract (delegated by the source to the external
`leaflet.markercluster` widget, hence modelled from the specification).

JavaScript strings are embedded as Lean `String`, with the ASCII-level
character operations (`toLowerCase`, `startsWith`, `includes`, `trim`)
re-implemented structurally over `List Char` so that all predicates are
executable and kernel-decidable.  JavaScript numbers are embedded as `ℚ`;
`NaN` (which arises only from `parseFloat` and from the rendering widget's
viewport) is embedded as `none` in an `Option ℚ`.
-/

namespace ReserveMap

/-- Lowercase a single character, as JavaScript `toLowerCase` acts on the
ASCII range (the repository's data is ASCII city/restaurant names). -/
def lowerChar (c : Char) : Char :=
  if 'A' ≤ c ∧ c ≤ 'Z' then Char.ofNat (c.toNat + 32) else c

/-- Lowercased character list of a string: `s.toLowerCase()`. -/
def lowerStr (s : String) : List Char :=
  s.data.map lowerChar

/-- Embedding of JavaScript `String.prototype.startsWith` on char lists:
`isPrefixL q s` is true when `q` is a leading segment of `s`. -/
def isPrefixL : List Char → List Char → Bool
  | [], _ => true
  | _ :: _, [] => false
  | c :: cs, d :: ds => c == d && isPrefixL cs ds

/-- Embedding of JavaScript `String.prototype.includes` on char lists:
`isInfixL q s` is true when `q` occurs contiguously inside `s`. -/
def isInfixL (q : List Char) : List Char → Bool
  | [] => isPrefixL q []
  | d :: ds => isPrefixL q (d :: ds) || isInfixL q ds

/-- Whitespace test for the characters JavaScript `trim` removes (ASCII part). -/
def isWSChar (c : Char) : Bool :=
  c == ' ' || c == '\t' || c == '\n' || c == '\r'

/-- Embedding of the emptiness test `!searchQuery.trim()` from Home.jsx:
a string trims to empty exactly when every character is whitespace. -/
def trimEmptyB (s : String) : Bool :=
  s.data.all isWSChar

theorem isPrefixL_refl : ∀ l : List Char, isPrefixL l l = true
  | [] => rfl
  | c :: cs => by simp [isPrefixL, isPrefixL_refl cs]

theorem isInfixL_self : ∀ l : List Char, isInfixL l l = true
  | [] => rfl
  | c :: cs => by simp [isInfixL, isPrefixL_refl]

/-! ### Data model

An `Entity` is one record of `public/data/restaurants.json` as consumed by
`Home.jsx` and `Map.jsx`: every stored record has numeric `lat`/`lon`
(guaranteed by the load filter in `scripts/convert-data.js`, modelled
separately below). -/

/-- Restaurant record as used by the pages (fields read by Home.jsx /
Map.jsx: `name`, `program`, `lat`, `lon`, `city`, `state`, `address`,
`website`).  Optional display strings absent in the JSON are embedded
as `""`. -/
structure Entity where
  name : String
  program : String
  lat : ℚ
  lon : ℚ
  city : String
  state : String
  address : String
  website : String
deriving DecidableEq

/-- Filter State of Home.jsx: `useState({ amex: true, chase: true })`. -/
structure FilterState where
  amex : Bool
  chase : Bool
deriving DecidableEq

/-- Visibility of a program identifier under a filter state.  The state
object of the source holds exactly the keys `amex` and `chase`; per the
specification's Filter State invariant, identifiers without an entry
default to visible. -/
def FilterState.visibleOf (f : FilterState) (p : String) : Bool :=
  if p == "amex" then f.amex
  else if p == "chase" then f.chase
  else true

/-- Marker predicate of Map.jsx lines 139-143: an entity is dropped when its
program is `amex` with the amex toggle off, or `chase` with the chase toggle
off, and kept otherwise. -/
def keepMarker (f : FilterState) (r : Entity) : Bool :=
  if r.program == "amex" && !f.amex then false
  else if r.program == "chase" && !f.chase then false
  else true

/-- Visible subset computed by the marker-update effect of Map.jsx:
`restaurants.filter(r => ...)`. -/
def visibleEntities (restaurants : List Entity) (f : FilterState) : List Entity :=
  restaurants.filter (keepMarker f)

theorem keepMarker_eq_visibleOf (f : FilterState) (r : Entity) :
    keepMarker f r = f.visibleOf r.program := by
  unfold keepMarker FilterState.visibleOf
  by_cases ha : r.program == "amex" <;> by_cases hc : r.program == "chase" <;>
    cases f.amex <;> cases f.chase <;> simp_all

/-- C1: for every Point Store and filter state, the visible set is the Point
Store filtered, in order, to exactly the entities whose program is toggled
on (programs other than the two known ones defaulting to visible); in
particular it is a subsequence of the store. -/
theorem visibleEntities_characterization (rs : List Entity) (f : FilterState) :
    visibleEntities rs f = rs.filter (fun r => f.visibleOf r.program)
      ∧ (visibleEntities rs f).Sublist rs := by
  constructor
  · unfold visibleEntities
    exact List.filter_congr (fun r _ => keepMarker_eq_visibleOf f r)
  · exact List.filter_sublist rs

/-! ### City index (Home.jsx, `cities` useMemo, lines 43-55)

The source builds a dictionary keyed by non-empty `city` in first-appearance
order (JavaScript objects preserve string-key insertion order), counts the
entities per city, records the first entity's `lat`/`lon`/`state` as the
representative, and sorts `Object.values` by `(a, b) => b.count - a.count`.
JavaScript `Array.prototype.sort` is stable, so the comparator induces the
unique stable descending-count order; it is embedded with Mathlib's stable
`List.insertionSort`. -/

/-- City Aggregate: one entry of the `cityMap` dictionary of Home.jsx. -/
structure CityAgg where
  name : String
  count : ℕ
  lat : ℚ
  lon : ℚ
  state : String
deriving DecidableEq

/-- Processing of one restaurant by the `restaurants.forEach` loop of the
`cities` useMemo: skip an empty (falsy) city, increment an existing entry,
or append a fresh entry with count 1 and the entity's coordinates. -/
def addEntity (acc : List CityAgg) (e : Entity) : List CityAgg :=
  if e.city == "" then acc
  else if acc.any (fun a => a.name == e.city) then
    acc.map (fun a => if a.name == e.city then { a with count := a.count + 1 } else a)
  else
    acc ++ [{ name := e.city, count := 1, lat := e.lat, lon := e.lon, state := e.state }]

/-- Dictionary of city aggregates in insertion order: the `cityMap` of
Home.jsx after the `forEach` loop, read off by `Object.values`. -/
def groupCities (restaurants : List Entity) : List CityAgg :=
  restaurants.foldl addEntity []

/-- Comparator of the `cities` useMemo, `(a, b) => b.count - a.count`, as the
total preorder it induces. -/
def byCountDesc (a b : CityAgg) : Prop :=
  b.count ≤ a.count

instance : DecidableRel byCountDesc := fun a b => Nat.decLe b.count a.count

instance : IsTotal CityAgg byCountDesc :=
  ⟨fun a b => Nat.le_total b.count a.count⟩

instance : IsTrans CityAgg byCountDesc :=
  ⟨fun _ _ _ h1 h2 => le_trans h2 h1⟩

/-- The `cities` value of Home.jsx: unique cities with counts, sorted by
descending count (stable). -/
def cities (restaurants : List Entity) : List CityAgg :=
  List.insertionSort byCountDesc (groupCities restaurants)

/-- Names of the aggregates of a city list. -/
def namesOf (l : List CityAgg) : List String :=
  l.map CityAgg.name

/-- Number of entities of a list carrying a given city value. -/
def cityCount (n : String) (restaurants : List Entity) : ℕ :=
  (restaurants.filter (fun e => e.city == n)).length

/-- Distinct non-empty city values of the input in order of first
appearance (the specification's deterministic grouping order). -/
def firstSeen (restaurants : List Entity) : List String :=
  restaurants.foldl
    (fun ns e => if e.city == "" || ns.contains e.city then ns else ns ++ [e.city]) []

/-! Auxiliary lemmas about the grouping fold. -/

theorem namesOf_append (l₁ l₂ : List CityAgg) :
    namesOf (l₁ ++ l₂) = namesOf l₁ ++ namesOf l₂ :=
  List.map_append _ _ _

theorem contains_namesOf (l : List CityAgg) (c : String) :
    (namesOf l).contains c = l.any (fun a => a.name == c) := by
  induction l with
  | nil => rfl
  | cons a tl ih =>
    by_cases h : a.name = c
    · simp [namesOf, h]
    · have h' : ¬(c = a.name) := fun hc => h hc.symm
      simp only [namesOf, List.map_cons, List.contains_cons, List.any_cons]
      have e1 : (c == a.name) = false := by simp [h']
      have e2 : (a.name == c) = false := by simp [h]
      rw [e1, e2, Bool.false_or, Bool.false_or]
      exact ih

theorem namesOf_addEntity (acc : List CityAgg) (e : Entity) :
    namesOf (addEntity acc e) =
      if e.city == "" || (namesOf acc).contains e.city then namesOf acc
      else namesOf acc ++ [e.city] := by
  by_cases h0 : e.city == ""
  · simp [addEntity, h0]
  · have h0' : (e.city == "") = false := Bool.eq_false_iff.mpr h0
    rw [contains_namesOf]
    by_cases h1 : acc.any (fun a => a.name == e.city)
    · rw [if_pos (by simp [h1])]
      simp only [addEntity, h0', Bool.false_eq_true, if_false, h1, if_true]
      unfold namesOf
      rw [List.map_map]
      apply List.map_congr_left
      intro a _
      by_cases hn : a.name = e.city <;> simp [hn]
    · have h1' : acc.any (fun a => a.name == e.city) = false :=
        Bool.eq_false_iff.mpr h1
      rw [if_neg (by simp [h0', h1'])]
      simp only [addEntity, h0', Bool.false_eq_true, if_false, h1', if_true]
      simp [namesOf]

/-- Name order of the grouping fold equals first-appearance order. -/
theorem namesOf_foldl (restaurants : List Entity) :
    ∀ acc : List CityAgg,
      namesOf (restaurants.foldl addEntity acc) =
        restaurants.foldl
          (fun ns e => if e.city == "" || ns.contains e.city then ns else ns ++ [e.city])
          (namesOf acc) := by
  induction restaurants with
  | nil => intro acc; rfl
  | cons e rest ih =>
    intro acc
    simp only [List.foldl_cons]
    rw [ih (addEntity acc e), namesOf_addEntity]

theorem namesOf_groupCities (restaurants : List Entity) :
    namesOf (groupCities restaurants) = firstSeen restaurants :=
  namesOf_foldl restaurants []

/-! No-duplicate and membership facts about first-appearance order. -/

theorem firstSeenStep_nodup (restaurants : List Entity) :
    ∀ ns : List String, ns.Nodup →
      (restaurants.foldl
        (fun ns e => if e.city == "" || ns.contains e.city then ns else ns ++ [e.city])
        ns).Nodup := by
  induction restaurants with
  | nil => intro ns h; exact h
  | cons e rest ih =>
    intro ns h
    simp only [List.foldl_cons]
    by_cases hc : (e.city == "" || ns.contains e.city) = true
    · rw [if_pos hc]; exact ih ns h
    · rw [if_neg hc]
      refine ih _ ?_
      have hnotin : e.city ∉ ns := by
        intro hmem
        exact hc (by simp; exact Or.inr hmem)
      simpa [List.nodup_append] using ⟨h, hnotin⟩

theorem nodup_namesOf_groupCities (restaurants : List Entity) :
    (namesOf (groupCities restaurants)).Nodup := by
  rw [namesOf_groupCities]
  exact firstSeenStep_nodup restaurants [] List.nodup_nil

theorem mem_firstSeenStep (restaurants : List Entity) :
    ∀ (ns : List String) (n : String),
      n ∈ restaurants.foldl
        (fun ns e => if e.city == "" || ns.contains e.city then ns else ns ++ [e.city]) ns
      ↔ n ∈ ns ∨ (n ≠ "" ∧ ∃ e ∈ restaurants, e.city = n) := by
  induction restaurants with
  | nil => intro ns n; simp
  | cons e rest ih =>
    intro ns n
    simp only [List.foldl_cons]
    by_cases hc : (e.city == "" || ns.contains e.city) = true
    · rw [if_pos hc, ih]
      constructor
      · rintro (h | h)
        · exact Or.inl h
        · exact Or.inr ⟨h.1, h.2.imp (fun x hx => ⟨List.mem_cons_of_mem e hx.1, hx.2⟩)⟩
      · rintro (h | ⟨hne, x, hx, hcity⟩)
        · exact Or.inl h
        · rcases List.mem_cons.mp hx with rfl | hx'
          · left
            rcases Bool.or_eq_true_iff.mp hc with h0 | h1
            · exact absurd (hcity ▸ (by simpa using h0)) hne
            · exact hcity ▸ List.mem_of_elem_eq_true h1
          · exact Or.inr ⟨hne, x, hx', hcity⟩
    · rw [if_neg hc, ih]
      have hc' : ((e.city == "") || ns.contains e.city) = false :=
        Bool.eq_false_iff.mpr hc
      rw [Bool.or_eq_false_iff] at hc'
      constructor
      · rintro (h | h)
        · rcases List.mem_append.mp h with h' | h'
          · exact Or.inl h'
          · have : n = e.city := by simpa using h'
            subst this
            refine Or.inr ⟨fun h0 => ?_, e, List.mem_cons_self e rest, rfl⟩
            rw [h0] at hc'
            simpa using hc'.1
        · exact Or.inr ⟨h.1, h.2.imp (fun x hx => ⟨List.mem_cons_of_mem e hx.1, hx.2⟩)⟩
      · rintro (h | ⟨hne, x, hx, hcity⟩)
        · exact Or.inl (List.mem_append_left _ h)
        · rcases List.mem_cons.mp hx with rfl | hx'
          · exact Or.inl (List.mem_append_right _ (by simp [hcity]))
          · exact Or.inr ⟨hne, x, hx', hcity⟩

theorem mem_namesOf_groupCities (restaurants : List Entity) (n : String) :
    n ∈ namesOf (groupCities restaurants)
      ↔ n ≠ "" ∧ ∃ e ∈ restaurants, e.city = n := by
  rw [namesOf_groupCities]
  unfold firstSeen
  rw [mem_firstSeenStep]
  simp

/-! Count correctness of the grouping fold. -/

/-- Total count recorded for a city name across a list of aggregates. -/
def aggCountOf (n : String) (l : List CityAgg) : ℕ :=
  ((l.filter (fun a => a.name == n)).map CityAgg.count).sum

theorem filter_name_eq_single {l : List CityAgg} (hnd : (namesOf l).Nodup)
    {a : CityAgg} (ha : a ∈ l) :
    l.filter (fun x => x.name == a.name) = [a] := by
  induction l with
  | nil => cases ha
  | cons b tl ih =>
    have hnd' : b.name ∉ namesOf tl ∧ (namesOf tl).Nodup := by
      simpa [namesOf] using hnd
    rcases List.mem_cons.mp ha with rfl | ha'
    · have htl : tl.filter (fun x => x.name == a.name) = [] := by
        refine List.filter_eq_nil_iff.mpr (fun x hx => ?_)
        have : x.name ∈ namesOf tl := List.mem_map_of_mem _ hx
        simp only [beq_iff_eq]
        intro hEq
        exact hnd'.1 (hEq ▸ this)
      simp [List.filter_cons, htl]
    · have hbn : (b.name == a.name) = false := by
        have : a.name ∈ namesOf tl := List.mem_map_of_mem _ ha'
        simp only [beq_eq_false_iff_ne, ne_eq]
        intro hEq
        exact hnd'.1 (hEq ▸ this)
      simp only [List.filter_cons, hbn, Bool.false_eq_true, if_false]
      exact ih hnd'.2 ha'

theorem nodup_names_addEntity (acc : List CityAgg) (e : Entity)
    (h : (namesOf acc).Nodup) : (namesOf (addEntity acc e)).Nodup := by
  rw [namesOf_addEntity]
  by_cases hc : (e.city == "" || (namesOf acc).contains e.city) = true
  · rw [if_pos hc]; exact h
  · rw [if_neg hc]
    have hc' : ((e.city == "") || (namesOf acc).contains e.city) = false :=
      Bool.eq_false_iff.mpr hc
    rw [Bool.or_eq_false_iff] at hc'
    have hnotin : e.city ∉ namesOf acc := by
      intro hmem
      have ht : (namesOf acc).contains e.city = true := List.elem_eq_true_of_mem hmem
      rw [ht] at hc'
      exact Bool.noConfusion hc'.2
    simpa [List.nodup_append] using ⟨h, hnotin⟩

theorem aggCountOf_nil (n : String) : aggCountOf n [] = 0 := rfl

theorem aggCountOf_cons (n : String) (x : CityAgg) (l : List CityAgg) :
    aggCountOf n (x :: l) =
      (if x.name == n then x.count else 0) + aggCountOf n l := by
  unfold aggCountOf
  rw [List.filter_cons]
  by_cases h : x.name == n <;> simp [h]

theorem aggCountOf_mapIncr (m n : String) : ∀ acc : List CityAgg,
    aggCountOf n
        (acc.map (fun a => if a.name == m then { a with count := a.count + 1 } else a))
      = aggCountOf n acc
        + (if m = n then (acc.filter (fun a => a.name == n)).length else 0) := by
  intro acc
  induction acc with
  | nil => simp [aggCountOf_nil]
  | cons a tl ih =>
    rw [List.map_cons, aggCountOf_cons, aggCountOf_cons, List.filter_cons, ih]
    by_cases h1 : a.name = n <;> by_cases h2 : a.name = m <;>
      by_cases h3 : m = n <;> simp_all <;> omega

theorem aggCountOf_addEntity (acc : List CityAgg) (e : Entity)
    (hnd : (namesOf acc).Nodup) (n : String) (hn : n ≠ "") :
    aggCountOf n (addEntity acc e) =
      aggCountOf n acc + (if e.city == n then 1 else 0) := by
  by_cases h0 : e.city == ""
  · have hee : e.city = "" := by simpa using h0
    have hne : (e.city == n) = false := by
      rw [hee]
      exact beq_eq_false_iff_ne.mpr (fun h => hn h.symm)
    simp [addEntity, h0, hne]
  · have h0' : (e.city == "") = false := Bool.eq_false_iff.mpr h0
    by_cases h1 : acc.any (fun a => a.name == e.city)
    · -- increment branch: exactly the unique aggregate named `e.city` gains one
      simp only [addEntity, h0', Bool.false_eq_true, if_false, h1, if_true]
      rw [aggCountOf_mapIncr e.city n acc]
      by_cases hq : e.city = n
      · subst hq
        rcases List.any_eq_true.mp h1 with ⟨a₀, ha₀, hname₀⟩
        have hname₀' : a₀.name = e.city := by simpa using hname₀
        have hsingle : acc.filter (fun x => x.name == e.city) = [a₀] := by
          have := filter_name_eq_single hnd ha₀
          rwa [hname₀'] at this
        simp [hsingle]
      · have hq' : (e.city == n) = false := beq_eq_false_iff_ne.mpr hq
        simp [hq, hq']
    · have h1' : acc.any (fun a => a.name == e.city) = false := Bool.eq_false_iff.mpr h1
      simp only [addEntity, h0', Bool.false_eq_true, if_false, h1', if_true]
      unfold aggCountOf
      rw [List.filter_append, List.map_append, List.sum_append]
      by_cases hq : e.city = n <;> simp [List.filter_cons, hq]

theorem aggCountOf_foldl (restaurants : List Entity) :
    ∀ acc : List CityAgg, (namesOf acc).Nodup → ∀ n : String, n ≠ "" →
      aggCountOf n (restaurants.foldl addEntity acc) =
        aggCountOf n acc + cityCount n restaurants := by
  induction restaurants with
  | nil => intro acc _ n _; simp [cityCount]
  | cons e rest ih =>
    intro acc hnd n hn
    simp only [List.foldl_cons]
    rw [ih (addEntity acc e) (nodup_names_addEntity acc e hnd) n hn,
      aggCountOf_addEntity acc e hnd n hn]
    have : cityCount n (e :: rest) =
        (if e.city == n then 1 else 0) + cityCount n rest := by
      unfold cityCount
      rw [List.filter_cons]
      by_cases h : e.city == n <;> simp [h] <;> omega
    rw [this]
    omega

theorem count_eq_cityCount_groupCities (restaurants : List Entity) :
    ∀ a ∈ groupCities restaurants, a.count = cityCount a.name restaurants := by
  intro a ha
  have hnd := nodup_namesOf_groupCities restaurants
  have hsingle := filter_name_eq_single hnd ha
  have hagg : aggCountOf a.name (groupCities restaurants) = a.count := by
    unfold aggCountOf
    rw [hsingle]
    simp
  have hne : a.name ≠ "" := by
    have : a.name ∈ namesOf (groupCities restaurants) := List.mem_map_of_mem _ ha
    exact ((mem_namesOf_groupCities restaurants a.name).mp this).1
  have h2 : aggCountOf a.name (groupCities restaurants) =
      aggCountOf a.name [] + cityCount a.name restaurants :=
    aggCountOf_foldl restaurants [] List.nodup_nil a.name hne
  rw [hagg] at h2
  simpa [aggCountOf_nil] using h2

/-! Stability of the count sort: the comparator `(a, b) => b.count - a.count`
never moves an element past one of equal count, so each count class of the
sorted output keeps the dictionary's first-appearance order. -/

theorem filter_orderedInsert_count (c : ℕ) (x : CityAgg) (l : List CityAgg) :
    (List.orderedInsert byCountDesc x l).filter (fun a => a.count == c) =
      if x.count == c then x :: l.filter (fun a => a.count == c)
      else l.filter (fun a => a.count == c) := by
  induction l with
  | nil => simp [List.orderedInsert, List.filter_cons]
  | cons y ys ih =>
    by_cases hr : byCountDesc x y
    · rw [List.orderedInsert_of_le _ _ hr, List.filter_cons]
    · have hgt : x.count < y.count := Nat.lt_of_not_le hr
      simp only [List.orderedInsert, if_neg hr, List.filter_cons]
      by_cases hy : y.count == c
      · -- an element strictly above `x` cannot share its count class with `x`
        have hyc : y.count = c := by simpa using hy
        have hxc : (x.count == c) = false := by
          apply beq_eq_false_iff_ne.mpr
          omega
        simp only [hy, if_true, ih, hxc, Bool.false_eq_true, if_false]
      · simp only [hy, Bool.false_eq_true, if_false, ih]

theorem filter_insertionSort_count (c : ℕ) (l : List CityAgg) :
    (List.insertionSort byCountDesc l).filter (fun a => a.count == c) =
      l.filter (fun a => a.count == c) := by
  induction l with
  | nil => rfl
  | cons a tl ih =>
    rw [List.insertionSort, filter_orderedInsert_count, ih, List.filter_cons]

/-! ### Claim C3: the city index -/

/-- C3 (amended): building the index groups entities by non-empty city —
exactly one aggregate per distinct city, with the aggregate count equal to
the number of entities of that city — and sorts by descending count; the
sort is stable, so each count class keeps the dictionary's first-appearance
order (it is not re-ordered alphabetically). -/
theorem cities_correct (rs : List Entity) :
    (namesOf (cities rs)).Nodup
    ∧ (∀ n : String, n ∈ namesOf (cities rs) ↔ (n ≠ "" ∧ ∃ e ∈ rs, e.city = n))
    ∧ (∀ a ∈ cities rs, a.count = cityCount a.name rs)
    ∧ (cities rs).Pairwise byCountDesc
    ∧ (∀ c : ℕ, (cities rs).filter (fun a => a.count == c)
        = (groupCities rs).filter (fun a => a.count == c))
    ∧ namesOf (groupCities rs) = firstSeen rs := by
  have hperm : List.Perm (cities rs) (groupCities rs) :=
    List.perm_insertionSort byCountDesc (groupCities rs)
  have hpermNames : List.Perm (namesOf (cities rs)) (namesOf (groupCities rs)) :=
    hperm.map CityAgg.name
  refine ⟨?_, ?_, ?_, ?_, ?_, namesOf_groupCities rs⟩
  · exact hpermNames.nodup_iff.mpr (nodup_namesOf_groupCities rs)
  · intro n
    rw [hpermNames.mem_iff]
    exact mem_namesOf_groupCities rs n
  · intro a ha
    exact count_eq_cityCount_groupCities rs a (hperm.mem_iff.mp ha)
  · exact List.sorted_insertionSort byCountDesc (groupCities rs)
  · intro c
    exact filter_insertionSort_count c (groupCities rs)

/-- Demonstration input for the tie-break counterexample: two cities "B"
and "A" (in that order), one restaurant each. -/
def entB : Entity :=
  { name := "Bistro B", program := "amex", lat := 1, lon := 2,
    city := "B", state := "", address := "", website := "" }

/-- Second demonstration restaurant, city "A". -/
def entA : Entity :=
  { name := "Cafe A", program := "amex", lat := 3, lon := 4,
    city := "A", state := "", address := "", website := "" }

/-- Tie demonstration store: city "B" first, then city "A". -/
def demoTie : List Entity := [entB, entA]

/-- Lexicographic (code-point) order on character lists, used to state the
claim's "ties broken by city name, ascending". -/
def lexLeCh : List Char → List Char → Bool
  | [], _ => true
  | _ :: _, [] => false
  | a :: as, b :: bs => a < b || (a == b && lexLeCh as bs)

/-- Ordering asserted by the claim: descending count with ties broken by
ascending city name. -/
def claimCityOrder (a b : CityAgg) : Prop :=
  b.count < a.count ∨ (a.count = b.count ∧ lexLeCh a.name.data b.name.data = true)

instance : DecidableRel claimCityOrder := fun a b => by
  unfold claimCityOrder
  exact inferInstance

/-- C3 counterexample: on the store `[city "B", city "A"]` — a count tie —
the index is NOT sorted with ties broken by ascending name: the code's
comparator compares only counts, and the stable sort leaves "B" first. -/
theorem cities_tiebreak_counterexample :
    ¬ (cities demoTie).Pairwise claimCityOrder := by
  decide

theorem cities_correct_witness :
    "B" ∈ namesOf (cities demoTie)
    ∧ ({ name := "B", count := 1, lat := 1, lon := 2, state := "" } : CityAgg).count
        = cityCount "B" demoTie :=
  ⟨((cities_correct demoTie).2.1 "B").mpr ⟨by decide, entB, by decide, rfl⟩,
   (cities_correct demoTie).2.2.1 _ (by decide)⟩

/-! ### City search (Home.jsx, `filteredCities` useMemo, lines 58-77)

The source lowercases the raw query once (`searchQuery.toLowerCase()` —
note: not trimmed; `trim` is used only for the emptiness test), filters the
city index by case-insensitive substring containment, sorts the matches with
the comparator "exact first, then starts-with, then by descending count"
(JavaScript sort, stable), and truncates: 15 results for an empty query,
20 for a real one. -/

/-- Substring test of the source: `c.name.toLowerCase().includes(query)`
(`query` is the already-lowercased search text). -/
def containsQ (query : List Char) (c : CityAgg) : Bool :=
  isInfixL query (lowerStr c.name)

/-- Ranking tier of the comparator of Home.jsx lines 63-75: 0 for an exact
lowercased match, 1 for a proper starts-with match, 2 for the rest. -/
def tierRank (query : List Char) (c : CityAgg) : ℕ :=
  if lowerStr c.name == query then 0
  else if isPrefixL query (lowerStr c.name) then 1
  else 2

/-- Total preorder induced by the match comparator: lower tier first, equal
tiers by descending count. -/
def tierLE (query : List Char) (a b : CityAgg) : Prop :=
  tierRank query a < tierRank query b
    ∨ (tierRank query a = tierRank query b ∧ b.count ≤ a.count)

instance (query : List Char) : DecidableRel (tierLE query) := fun a b => by
  unfold tierLE
  exact inferInstance

instance (query : List Char) : IsTotal CityAgg (tierLE query) := by
  refine ⟨fun a b => ?_⟩
  unfold tierLE
  rcases Nat.lt_trichotomy (tierRank query a) (tierRank query b) with h | h | h
  · exact Or.inl (Or.inl h)
  · rcases Nat.le_total b.count a.count with h' | h'
    · exact Or.inl (Or.inr ⟨h, h'⟩)
    · exact Or.inr (Or.inr ⟨h.symm, h'⟩)
  · exact Or.inr (Or.inl h)

instance (query : List Char) : IsTrans CityAgg (tierLE query) := by
  refine ⟨fun a b c hab hbc => ?_⟩
  rcases hab with h1 | ⟨h1, h2⟩ <;> rcases hbc with h3 | ⟨h3, h4⟩
  · exact Or.inl (h1.trans h3)
  · exact Or.inl (h3 ▸ h1)
  · exact Or.inl (h1 ▸ h3)
  · exact Or.inr ⟨h1.trans h3, le_trans h4 h2⟩

/-- Matching-and-sorting part of the `filteredCities` useMemo (the value
`matches` after the in-place `sort`). -/
def searchMatches (cs : List CityAgg) (searchQuery : String) : List CityAgg :=
  List.insertionSort (tierLE (lowerStr searchQuery))
    (cs.filter (containsQ (lowerStr searchQuery)))

/-- The `filteredCities` value of Home.jsx: top 15 cities for a blank query,
otherwise the ranked matches truncated to 20. -/
def filteredCities (cs : List CityAgg) (searchQuery : String) : List CityAgg :=
  if trimEmptyB searchQuery then cs.take 15
  else (searchMatches cs searchQuery).take 20

theorem tierRank_eq_zero_iff (query : List Char) (c : CityAgg) :
    tierRank query c = 0 ↔ lowerStr c.name = query := by
  unfold tierRank
  by_cases h : lowerStr c.name == query
  · simp [h]
    exact eq_of_beq h
  · have h' : ¬(lowerStr c.name = query) := fun hEq => h (by simp [hEq])
    by_cases h2 : isPrefixL query (lowerStr c.name) <;>
      simp [h, h2, h']

/-- C4: for a query that is non-blank after trimming, the candidate list is
exactly the cities whose lowercased name contains the lowercased query,
ordered exact-match tier first, then starts-with, then the remaining
substring matches, descending by count inside each tier; when an exact
match exists, the head of the ranking is an exact match; and the rendered
result is this ranking truncated to 20. -/
theorem search_ranking (cs : List CityAgg) (sq : String)
    (hq : trimEmptyB sq = false) :
    (∀ c : CityAgg, c ∈ searchMatches cs sq
        ↔ (c ∈ cs ∧ containsQ (lowerStr sq) c = true))
    ∧ (searchMatches cs sq).Pairwise (fun a b =>
        tierRank (lowerStr sq) a ≤ tierRank (lowerStr sq) b
          ∧ (tierRank (lowerStr sq) a = tierRank (lowerStr sq) b
              → b.count ≤ a.count))
    ∧ ((∃ c ∈ cs, lowerStr c.name = lowerStr sq) →
        ∃ d, (searchMatches cs sq).head? = some d
          ∧ lowerStr d.name = lowerStr sq)
    ∧ filteredCities cs sq = (searchMatches cs sq).take 20 := by
  have hmem : ∀ c : CityAgg, c ∈ searchMatches cs sq
      ↔ (c ∈ cs ∧ containsQ (lowerStr sq) c = true) := by
    intro c
    unfold searchMatches
    rw [List.mem_insertionSort, List.mem_filter]
  have hsorted : (searchMatches cs sq).Pairwise (tierLE (lowerStr sq)) :=
    List.sorted_insertionSort (tierLE (lowerStr sq)) _
  refine ⟨hmem, ?_, ?_, by unfold filteredCities; rw [if_neg (by simp [hq])]⟩
  · refine hsorted.imp (fun hab => ?_)
    rcases hab with h | ⟨h, h'⟩
    · exact ⟨Nat.le_of_lt h, fun hEq => absurd (hEq ▸ h) (lt_irrefl _)⟩
    · exact ⟨Nat.le_of_eq h, fun _ => h'⟩
  · rintro ⟨c₀, hc₀mem, hc₀⟩
    have hc₀in : c₀ ∈ searchMatches cs sq := by
      refine (hmem c₀).mpr ⟨hc₀mem, ?_⟩
      unfold containsQ
      rw [hc₀]
      exact isInfixL_self _
    rcases hd : searchMatches cs sq with _ | ⟨d, tl⟩
    · rw [hd] at hc₀in; cases hc₀in
    · refine ⟨d, rfl, ?_⟩
      rw [hd] at hc₀in hsorted
      rcases List.mem_cons.mp hc₀in with rfl | htl
      · exact hc₀
      · have hrel : tierLE (lowerStr sq) d c₀ :=
          (List.pairwise_cons.mp hsorted).1 c₀ htl
        have hr₀ : tierRank (lowerStr sq) c₀ = 0 :=
          (tierRank_eq_zero_iff _ _).mpr hc₀
        have hrd : tierRank (lowerStr sq) d = 0 := by
          rcases hrel with h | ⟨h, _⟩ <;> omega
        exact (tierRank_eq_zero_iff _ _).mp hrd

/-- C5: the blank-query branch returns the first 15 entries of the
count-sorted index (the top 15 cities by count), the search branch returns
at most 20 entries, and neither branch ever exceeds its limit. -/
theorem search_limits (rs : List Entity) (sq : String) :
    ((filteredCities (cities rs) sq).length
        ≤ if trimEmptyB sq then 15 else 20)
    ∧ (trimEmptyB sq = true →
        filteredCities (cities rs) sq = (cities rs).take 15
          ∧ ((cities rs).take 15).Pairwise byCountDesc) := by
  constructor
  · unfold filteredCities
    by_cases h : trimEmptyB sq <;> simp [h, List.length_take_le]
  · intro h
    refine ⟨by unfold filteredCities; rw [if_pos h], ?_⟩
    exact List.Pairwise.sublist (List.take_sublist 15 (cities rs))
      (List.sorted_insertionSort byCountDesc (groupCities rs))

/-- C6: search is total — every returned city comes from the index, and when
the query is non-blank and no city name contains it, the result is the empty
list (a valid outcome, not an error). -/
theorem search_no_match (cs : List CityAgg) (sq : String) :
    (∀ c ∈ filteredCities cs sq, c ∈ cs)
    ∧ ((trimEmptyB sq = false ∧ ∀ c ∈ cs, containsQ (lowerStr sq) c = false) →
        filteredCities cs sq = []) := by
  constructor
  · intro c hc
    unfold filteredCities at hc
    by_cases h : trimEmptyB sq
    · rw [if_pos h] at hc
      exact List.mem_of_mem_take hc
    · rw [if_neg h] at hc
      have := List.mem_of_mem_take hc
      unfold searchMatches at this
      rw [List.mem_insertionSort] at this
      exact (List.mem_filter.mp this).1
  · rintro ⟨h, hnone⟩
    have hfil : cs.filter (containsQ (lowerStr sq)) = [] :=
      List.filter_eq_nil_iff.mpr (fun c hc => by simp [hnone c hc])
    unfold filteredCities searchMatches
    rw [if_neg (by simp [h]), hfil]
    rfl

/-- Demonstration index entry: New York, one restaurant. -/
def nyAgg : CityAgg :=
  { name := "New York", count := 1, lat := 40, lon := -74, state := "NY" }

/-- Demonstration index entry: Los Angeles, two restaurants. -/
def laAgg : CityAgg :=
  { name := "Los Angeles", count := 2, lat := 34, lon := -118, state := "CA" }

/-- Demonstration city index (count-descending order, as `cities` yields). -/
def demoIdx : List CityAgg := [laAgg, nyAgg]

theorem search_ranking_witness :
    (searchMatches demoIdx "new york").head? = some nyAgg
    ∧ (∃ d, (searchMatches demoIdx "new york").head? = some d
        ∧ lowerStr d.name = lowerStr "new york") :=
  ⟨by decide,
   (search_ranking demoIdx "new york" (by decide)).2.2.1
     ⟨nyAgg, by decide, by decide⟩⟩

theorem search_limits_witness :
    ((filteredCities (cities demoTie) " ").length
        ≤ if trimEmptyB " " then 15 else 20)
    ∧ (filteredCities (cities demoTie) " " = (cities demoTie).take 15
        ∧ ((cities demoTie).take 15).Pairwise byCountDesc) :=
  ⟨(search_limits demoTie " ").1, (search_limits demoTie " ").2 (by decide)⟩

theorem search_no_match_witness :
    (∀ c ∈ filteredCities demoIdx "zzz", c ∈ demoIdx)
    ∧ filteredCities demoIdx "zzz" = [] :=
  ⟨(search_no_match demoIdx "zzz").1,
   (search_no_match demoIdx "zzz").2 ⟨by decide, by decide⟩⟩

/-! ### Clustering Engine (specification §4.2)

Map.jsx delegates clustering to the external `leaflet.markercluster` widget
(`L.markerClusterGroup({ maxClusterRadius: 50, ... })`, `addLayers`); the
widget's algorithm is not part of this repository, so the engine below is
modelled from the specification's contract: project entities to screen
space, then greedily seed clusters in Point Store order, each seed absorbing
every remaining unclustered entity within the configured pixel radius. -/

/-- Modelled from the spec: the error taxonomy entry for degenerate
clustering geometry (§7), absent from the source, which has no clustering
code of its own. -/
inductive ClusterError where
  | invalidViewport
deriving DecidableEq

/-- Modelled from the spec: viewport of the clustering contract — center,
zoom level, bounding box.  A bound is `none` where the rendering widget
would hand over NaN. -/
structure Viewport where
  centerLat : ℚ
  centerLon : ℚ
  zoom : ℕ
  south : Option ℚ
  north : Option ℚ
  west : Option ℚ
  east : Option ℚ
deriving DecidableEq

/-- Modelled from the spec: clustering configuration
`{maxClusterRadiusPixels, minZoomToSplit}` (the source passes
`maxClusterRadius: 50` to the widget). -/
structure ClusterConfig where
  maxClusterRadius : ℚ
  minZoomToSplit : ℕ
deriving DecidableEq

/-- Bounding-box validity: all four bounds numeric (not NaN) and the box
non-degenerate. -/
def Viewport.validBounds (v : Viewport) : Bool :=
  match v.south, v.north, v.west, v.east with
  | some s, some n, some w, some e => decide (s < n) && decide (w < e)
  | _, _, _, _ => false

/-- Modelled from the spec: projection of a geographic coordinate to a
screen-pixel position at the viewport's zoom (an equirectangular 256·2^zoom
world, a documented implementation choice — the engine's grouping facts
below hold for any projection). -/
def project (v : Viewport) (lat lon : ℚ) : ℚ × ℚ :=
  (((lon + 180) / 360) * (256 * 2 ^ v.zoom),
   ((90 - lat) / 180) * (256 * 2 ^ v.zoom))

/-- Screen-distance absorption test: within `maxClusterRadiusPixels` of the
seed (squared Euclidean distance against squared radius). -/
def nearB (v : Viewport) (cfg : ClusterConfig) (a b : Entity) : Bool :=
  decide (((project v a.lat a.lon).1 - (project v b.lat b.lon).1) ^ 2
      + ((project v a.lat a.lon).2 - (project v b.lat b.lon).2) ^ 2
    ≤ cfg.maxClusterRadius ^ 2)

/-- Modelled from the spec: Cluster Node — center, absorbed entities; the
displayed center is the seed entity's position (the specification's other
allowed choice is the centroid), the count is the member count. -/
structure ClusterNode where
  centerLat : ℚ
  centerLon : ℚ
  members : List Entity
deriving DecidableEq

/-- Displayed count of a cluster node. -/
def ClusterNode.count (c : ClusterNode) : ℕ :=
  c.members.length

/-- Modelled from the spec: the greedy grid/radius pass — for each entity in
Point Store order that is still unclustered, open a cluster seeded at its
position and absorb every remaining unclustered entity within radius. -/
def greedyCluster (v : Viewport) (cfg : ClusterConfig) : List Entity → List ClusterNode
  | [] => []
  | e :: rest =>
    { centerLat := e.lat, centerLon := e.lon,
      members := e :: rest.filter (fun x => nearB v cfg e x) }
      :: greedyCluster v cfg (rest.filter (fun x => !nearB v cfg e x))
termination_by l => l.length
decreasing_by
  simp only [List.length_cons]
  exact Nat.lt_succ_of_le (List.length_filter_le _ rest)

/-- Modelled from the spec: the clustering operation — a degenerate or NaN
viewport yields an empty cluster set together with the `InvalidViewport`
report; a valid one yields the greedy clusters. -/
def cluster (entities : List Entity) (v : Viewport) (cfg : ClusterConfig) :
    List ClusterNode × Option ClusterError :=
  if v.validBounds then (greedyCluster v cfg entities, none)
  else ([], some ClusterError.invalidViewport)

theorem greedyCluster_perm (v : Viewport) (cfg : ClusterConfig) :
    ∀ entities : List Entity,
      List.Perm ((greedyCluster v cfg entities).map ClusterNode.members).flatten entities := by
  have key : ∀ (n : ℕ) (es : List Entity), es.length ≤ n →
      List.Perm ((greedyCluster v cfg es).map ClusterNode.members).flatten es := by
    intro n
    induction n with
    | zero =>
      intro es hlen
      rw [List.length_eq_zero.mp (Nat.le_zero.mp hlen)]
      rw [greedyCluster]
      simp
    | succ n ih =>
      intro es hlen
      match es with
      | [] => rw [greedyCluster]; simp
      | e :: rest =>
        rw [greedyCluster]
        simp only [List.map_cons, List.flatten_cons]
        have hfar : (rest.filter (fun x => !nearB v cfg e x)).length ≤ n := by
          have h1 := List.length_filter_le (fun x => !nearB v cfg e x) rest
          have h2 : rest.length + 1 ≤ n + 1 := by simpa using hlen
          omega
        have hrec := ih (rest.filter (fun x => !nearB v cfg e x)) hfar
        have step1 : List.Perm
            ((e :: rest.filter (fun x => nearB v cfg e x))
              ++ ((greedyCluster v cfg (rest.filter (fun x => !nearB v cfg e x))).map
                  ClusterNode.members).flatten)
            ((e :: rest.filter (fun x => nearB v cfg e x))
              ++ rest.filter (fun x => !nearB v cfg e x)) :=
          List.Perm.append_left _ hrec
        have step2 : List.Perm
            (e :: (rest.filter (fun x => nearB v cfg e x)
              ++ rest.filter (fun x => !nearB v cfg e x)))
            (e :: rest) :=
          List.Perm.cons e (List.filter_append_perm _ rest)
        exact step1.trans step2
  intro entities
  exact key entities.length entities le_rfl

/-- C7: for every filtered entity set, viewport with well-formed bounds, and
configuration, the returned cluster nodes partition the input — the
concatenation of all members is a permutation of the entity list, so every
entity lands in exactly one node, none dropped, none duplicated. -/
theorem cluster_partitions (entities : List Entity) (v : Viewport)
    (cfg : ClusterConfig) (hv : v.validBounds = true) :
    List.Perm (((cluster entities v cfg).1).map ClusterNode.members).flatten entities := by
  unfold cluster
  rw [if_pos hv]
  exact greedyCluster_perm v cfg entities

/-- C8: invoking the clustering operation with invalid bounds (a NaN bound or
a degenerate box) yields the empty cluster set together with the
`InvalidViewport` report; being a total function, it cannot crash. -/
theorem cluster_invalid_viewport (entities : List Entity) (v : Viewport)
    (cfg : ClusterConfig) (hv : v.validBounds = false) :
    cluster entities v cfg = ([], some ClusterError.invalidViewport) := by
  unfold cluster
  rw [hv]
  rfl

/-- Demonstration viewport with well-formed bounds over the USA. -/
def demoViewport : Viewport :=
  { centerLat := 39, centerLon := -98, zoom := 4,
    south := some (-90), north := some 90,
    west := some (-180), east := some 180 }

/-- Demonstration viewport with a NaN south bound. -/
def badViewport : Viewport :=
  { centerLat := 0, centerLon := 0, zoom := 4,
    south := none, north := some 90,
    west := some (-180), east := some 180 }

/-- Demonstration clustering configuration (the widget options of Map.jsx
use a 50-pixel radius). -/
def demoCfg : ClusterConfig :=
  { maxClusterRadius := 50, minZoomToSplit := 0 }

theorem cluster_partitions_witness :
    demoViewport.validBounds = true
    ∧ List.Perm
        (((cluster demoTie demoViewport demoCfg).1).map ClusterNode.members).flatten
        demoTie :=
  ⟨by decide, cluster_partitions demoTie demoViewport demoCfg (by decide)⟩

theorem cluster_invalid_viewport_witness :
    badViewport.validBounds = false
    ∧ cluster demoTie badViewport demoCfg = ([], some ClusterError.invalidViewport) :=
  ⟨by decide, cluster_invalid_viewport demoTie badViewport demoCfg (by decide)⟩

/-! ### Data load (scripts/convert-data.js, lines 55-65 and 72-81)

The conversion script maps each parsed CSV row to a record and keeps it only
when `r.lat && r.lon && !isNaN(r.lat) && !isNaN(r.lon)` holds (the Chase
pipeline also requires `r.name`).  `parseFloat` results are embedded as
`Option ℚ` with `none` standing for NaN; JavaScript truthiness of a number
is "not NaN and not zero". -/

/-- Parsed CSV row as read by the map steps of convert-data.js; `lat` and
`lon` carry the `parseFloat(row.lat)` / `parseFloat(row.lon)` results. -/
structure Row where
  name : String
  google_name : String
  address : String
  city : String
  state : String
  cuisine : String
  neighborhood : String
  website : String
  lat : Option ℚ
  lon : Option ℚ
deriving DecidableEq

/-- Record shape produced by the chase/gda `map` steps; fields written as
`x || null` in the source are embedded as `Option String`, fields a pipeline
does not set as `none`. -/
structure RawEntity where
  name : String
  address : String
  city : String
  state : Option String
  cuisine : Option String
  neighborhood : Option String
  website : String
  lat : Option ℚ
  lon : Option ℚ
  program : String
deriving DecidableEq

/-- JavaScript `a || b` on strings (empty string is falsy). -/
def strOr (a b : String) : String :=
  if a == "" then b else a

/-- JavaScript `a || null` on an optional string field. -/
def strOrNull (a : String) : Option String :=
  if a == "" then none else some a

/-- The chase `map` step: `{name: row.name || row.google_name, address,
city, cuisine: row.cuisine || null, neighborhood: row.neighborhood || null,
website, lat, lon, program: 'chase'}`. -/
def chaseOfRow (row : Row) : RawEntity :=
  { name := strOr row.name row.google_name, address := row.address,
    city := row.city, state := none, cuisine := strOrNull row.cuisine,
    neighborhood := strOrNull row.neighborhood, website := row.website,
    lat := row.lat, lon := row.lon, program := "chase" }

/-- The gda (amex) `map` step: `{name: row.name || row.google_name, address,
city, state: row.state || null, website, lat, lon, program: 'amex'}`. -/
def amexOfRow (row : Row) : RawEntity :=
  { name := strOr row.name row.google_name, address := row.address,
    city := row.city, state := strOrNull row.state, cuisine := none,
    neighborhood := none, website := row.website,
    lat := row.lat, lon := row.lon, program := "amex" }

/-- JavaScript truthiness of a parsed number: NaN and 0 are falsy. -/
def truthyQ : Option ℚ → Bool
  | none => false
  | some x => x != 0

/-- JavaScript `isNaN` on a parsed number. -/
def isNaNQ : Option ℚ → Bool
  | none => true
  | some _ => false

/-- Chase keep-filter:
`r.lat && r.lon && !isNaN(r.lat) && !isNaN(r.lon) && r.name`. -/
def chaseValid (r : RawEntity) : Bool :=
  truthyQ r.lat && truthyQ r.lon && !isNaNQ r.lat && !isNaNQ r.lon
    && r.name != ""

/-- Gda keep-filter: `r.lat && r.lon && !isNaN(r.lat) && !isNaN(r.lon)`. -/
def amexValid (r : RawEntity) : Bool :=
  truthyQ r.lat && truthyQ r.lon && !isNaNQ r.lat && !isNaNQ r.lon

/-- The `chaseData` constant of convert-data.js. -/
def chaseData (rows : List Row) : List RawEntity :=
  (rows.map chaseOfRow).filter chaseValid

/-- The `gdaData` constant of convert-data.js. -/
def gdaData (rows : List Row) : List RawEntity :=
  (rows.map amexOfRow).filter amexValid

/-- The combined `allData = [...chaseData, ...gdaData]` written to
`restaurants.json` — the Point Store contents. -/
def allData (chaseRows gdaRows : List Row) : List RawEntity :=
  chaseData chaseRows ++ gdaData gdaRows

/-- Coordinate validity in the words of the claim: both coordinates numeric
(non-NaN), latitude within [-90, 90] and longitude within [-180, 180]. -/
def coordsInRange (r : RawEntity) : Bool :=
  match r.lat, r.lon with
  | some la, some lo =>
    decide (-90 ≤ la ∧ la ≤ 90 ∧ -180 ≤ lo ∧ lo ≤ 180)
  | _, _ => false

/-- CSV row whose latitude parses to 200 — outside [-90, 90] but accepted by
the script's truthiness test. -/
def badRow : Row :=
  { name := "Out Of Range", google_name := "", address := "Somewhere",
    city := "X", state := "", cuisine := "", neighborhood := "",
    website := "", lat := some 200, lon := some 10 }

/-- C9 counterexample: a record with latitude 200 passes the load filter and
enters the store, so the store does NOT consist solely of entities with
latitude in [-90, 90]: the script never checks coordinate ranges. -/
theorem load_range_counterexample :
    (allData [badRow] []).all coordsInRange = false := by
  decide

theorem truthyQ_sound (o : Option ℚ) (h : truthyQ o = true) :
    ∃ x : ℚ, o = some x ∧ x ≠ 0 := by
  cases o with
  | none => cases h
  | some x => exact ⟨x, rfl, by simpa [truthyQ] using h⟩

/-- C9 (amended): every record entering the Point Store at load time has
numeric (non-NaN) and non-zero coordinates — the script checks JavaScript
truthiness, not ranges — and records failing that check are dropped one by
one, each row's fate independent of the rest, so a bad row never aborts the
load. -/
theorem load_filter_correct :
    (∀ (chaseRows gdaRows : List Row), ∀ r ∈ allData chaseRows gdaRows,
        (∃ x : ℚ, r.lat = some x ∧ x ≠ 0) ∧ (∃ y : ℚ, r.lon = some y ∧ y ≠ 0))
    ∧ (∀ (row : Row) (rest : List Row), chaseData (row :: rest)
        = (if chaseValid (chaseOfRow row) then [chaseOfRow row] else [])
          ++ chaseData rest)
    ∧ (∀ (row : Row) (rest : List Row), gdaData (row :: rest)
        = (if amexValid (amexOfRow row) then [amexOfRow row] else [])
          ++ gdaData rest) := by
  refine ⟨?_, ?_, ?_⟩
  · intro chaseRows gdaRows r hr
    have hvalid : truthyQ r.lat = true ∧ truthyQ r.lon = true := by
      rcases List.mem_append.mp hr with h | h
      · have := (List.mem_filter.mp h).2
        unfold chaseValid at this
        simp only [Bool.and_eq_true] at this
        exact ⟨this.1.1.1.1, this.1.1.1.2⟩
      · have := (List.mem_filter.mp h).2
        unfold amexValid at this
        simp only [Bool.and_eq_true] at this
        exact ⟨this.1.1.1, this.1.1.2⟩
    exact ⟨truthyQ_sound r.lat hvalid.1, truthyQ_sound r.lon hvalid.2⟩
  · intro row rest
    unfold chaseData
    rw [List.map_cons, List.filter_cons]
    by_cases h : chaseValid (chaseOfRow row) <;> simp [h]
  · intro row rest
    unfold gdaData
    rw [List.map_cons, List.filter_cons]
    by_cases h : amexValid (amexOfRow row) <;> simp [h]

/-- CSV row with well-formed in-range coordinates. -/
def goodRow : Row :=
  { name := "Good Place", google_name := "", address := "", city := "Y",
    state := "", cuisine := "", neighborhood := "", website := "",
    lat := some 40, lon := some (-74) }

theorem load_filter_correct_witness :
    ((∃ x : ℚ, (chaseOfRow goodRow).lat = some x ∧ x ≠ 0)
      ∧ (∃ y : ℚ, (chaseOfRow goodRow).lon = some y ∧ y ≠ 0))
    ∧ chaseData [badRow]
        = (if chaseValid (chaseOfRow badRow) then [chaseOfRow badRow] else [])
          ++ chaseData [] :=
  ⟨load_filter_correct.1 [goodRow] [] (chaseOfRow goodRow) (by decide),
   load_filter_correct.2.1 badRow []⟩

/-! ### Claim C10: count display vs rendered markers -/

/-- Count predicate of the filter-bar total of Home.jsx lines 194-197:
`(r.program === 'amex' && filters.amex) || (r.program === 'chase' &&
filters.chase)`. -/
def countPred (f : FilterState) (r : Entity) : Bool :=
  (r.program == "amex" && f.amex) || (r.program == "chase" && f.chase)

/-- Restaurant total displayed in the filter bar. -/
def displayedCount (rs : List Entity) (f : FilterState) : ℕ :=
  (rs.filter (countPred f)).length

/-- Number of markers handed to the cluster group by Map.jsx. -/
def renderedMarkerCount (rs : List Entity) (f : FilterState) : ℕ :=
  (visibleEntities rs f).length

/-- Restaurant whose program is neither of the two known identifiers. -/
def entVisa : Entity :=
  { name := "V", program := "visa", lat := 5, lon := 6,
    city := "Z", state := "", address := "", website := "" }

/-- C10 counterexample: on a store holding one entity of program "visa" with
both toggles on, the filter bar counts 0 restaurants while the map renders 1
marker — the two predicates are not equivalent. -/
theorem count_display_counterexample :
    displayedCount [entVisa] { amex := true, chase := true }
      ≠ renderedMarkerCount [entVisa] { amex := true, chase := true } := by
  decide

theorem countPred_eq_keepMarker (f : FilterState) (r : Entity)
    (h : r.program = "amex" ∨ r.program = "chase") :
    countPred f r = keepMarker f r := by
  rcases h with h | h <;>
    · unfold countPred keepMarker
      rw [h]
      cases f.amex <;> cases f.chase <;> simp

/-- C10 (amended): the filter-bar predicate and the map predicate agree on
every entity whose program is one of the two known identifiers; hence on any
store populated only with "amex"/"chase" programs — which is all the
conversion script ever emits — the displayed count equals the number of
rendered markers.  They disagree exactly on foreign programs (see the
counterexample). -/
theorem count_display_agree (rs : List Entity) (f : FilterState)
    (h : ∀ r ∈ rs, r.program = "amex" ∨ r.program = "chase") :
    rs.filter (countPred f) = visibleEntities rs f
    ∧ displayedCount rs f = renderedMarkerCount rs f := by
  have heq : rs.filter (countPred f) = visibleEntities rs f := by
    unfold visibleEntities
    exact List.filter_congr (fun r hr => countPred_eq_keepMarker f r (h r hr))
  exact ⟨heq, by unfold displayedCount renderedMarkerCount; rw [heq]⟩

theorem count_display_agree_witness :
    demoTie.filter (countPred { amex := true, chase := false })
      = visibleEntities demoTie { amex := true, chase := false }
    ∧ displayedCount demoTie { amex := true, chase := false }
      = renderedMarkerCount demoTie { amex := true, chase := false } :=
  count_display_agree demoTie { amex := true, chase := false } (by decide)

end ReserveMap
